import Mathlib

/-
  Verification of the cloud.devenv.sh control/execution engine.

  Shallow embedding of the Rust sources:
    - src/backend/src/job/model.rs        (Job, claim/cancel/retry/status updates)
    - src/backend/src/runner/serve.rs     (websocket handler, claim path)
    - src/backend/src/runner/cloudconfig.rs (cloud-config parsing)
    - src/runner/src/resource_manager.rs  (resource accounting, RAII guards)
    - src/runner/src/protocol.rs          (wire types)
    - src/logger/src/server.rs, stream.rs (log ingestion and tailing reader)

  UUIDs are modelled as Nat, timestamps as Nat.  Database tables are lists of
  rows; the per-row transformations mirror the SQL UPDATE statements.
-/

namespace DevenvCloud

/-! ## Wire protocol types (src/runner/src/protocol.rs) -/

inductive Platform
  | X86_64Linux
  | AArch64Darwin
  deriving DecidableEq, Repr

inductive CompletionStatus
  | Failed
  | Success
  | Cancelled
  | TimedOut
  | Skipped
  deriving DecidableEq, Repr

inductive JobStatus
  | Queued
  | Running
  | Complete (c : CompletionStatus)
  deriving DecidableEq, Repr

structure VM where
  cpu_count : Nat
  memory_size_mb : Nat
  platform : Platform
  deriving DecidableEq, Repr

/-! ## Job rows (src/backend/src/job/model.rs, struct Job) -/

structure Job where
  id : Nat
  platform : Platform
  status : JobStatus
  started_at : Option Nat
  finished_at : Option Nat
  runner_id : Option Nat
  cpus : Int
  memory_mb : Int
  retried_job_id : Option Nat
  created_at : Nat
  previous_job_id : Option Nat
  deriving DecidableEq, Repr

/-- Embedding of `Job::claim_job_for_runner`'s row transformation: the UPDATE
filters on `id = job_id AND status = 'queued'` and sets `status := running`
and `runner_id := runner_id`.  No other column is touched. -/
def claimRow (job_id runner_id : Nat) (j : Job) : Job :=
  if j.id = job_id ∧ j.status = JobStatus.Queued then
    { j with status := JobStatus.Running, runner_id := some runner_id }
  else j

/-- Embedding of `Job::claim_job_for_runner` (src/backend/src/job/model.rs:278):
the atomic UPDATE applied to the whole jobs table, returning the number of
rows changed (what diesel's `execute` returns) together with the new table. -/
def claim_job_for_runner (tbl : List Job) (job_id runner_id : Nat) :
    Nat × List Job :=
  (tbl.countP (fun j => decide (j.id = job_id ∧ j.status = JobStatus.Queued)),
   tbl.map (claimRow job_id runner_id))

/-- Embedding of the `ClientMessage::ClaimJob` handler in
src/backend/src/runner/serve.rs:209-235: after `claim_job_for_runner` changed
one row, `JobGitHub::update_status(Running)` is invoked best-effort; its
Running arm (src/backend/src/github/model.rs:650-661) performs a second,
separate UPDATE setting `started_at := now` — but only if the preceding
GitHub API call succeeded (`forgeOk`); errors are discarded with `.ok()`. -/
def claim_serve_path (tbl : List Job) (job_id runner_id now : Nat)
    (forgeOk : Bool) : List Job :=
  let r := claim_job_for_runner tbl job_id runner_id
  if r.1 = 1 ∧ forgeOk = true then
    r.2.map (fun j => if j.id = job_id then { j with started_at := some now } else j)
  else r.2

/-- Embedding of `Job::update_job_status` (src/backend/src/job/model.rs:294):
an unconditional UPDATE of the status column, with no guard on the prior
status.  This is the operation behind the `UpdateJobStatus` message path. -/
def update_job_status (j : Job) (s : JobStatus) : Job :=
  { j with status := s }

/-- Embedding of `Job::complete` (src/backend/src/job/model.rs:242): sets
`finished_at := now` and `status := Complete c`. -/
def completeJob (j : Job) (c : CompletionStatus) (now : Nat) : Job :=
  { j with finished_at := some now, status := JobStatus.Complete c }

/-- Embedding of `Job::cancel` (src/backend/src/job/model.rs:403): inside a
row-locking transaction, a Queued or Running job is completed as Cancelled;
any other status leaves the row unchanged and reports `false`. -/
def cancelJob (j : Job) (now : Nat) : Bool × Job :=
  match j.status with
  | JobStatus.Queued => (true, completeJob j CompletionStatus.Cancelled now)
  | JobStatus.Running => (true, completeJob j CompletionStatus.Cancelled now)
  | _ => (false, j)

/-- Embedding of `Job::is_retryable` (src/backend/src/job/model.rs:327). -/
def is_retryable (j : Job) : Bool :=
  match j.status with
  | JobStatus.Complete c => decide (c ≠ CompletionStatus.Success)
  | _ => false

/-- Embedding of `Job::retry` (src/backend/src/job/model.rs:336), run inside
one transaction by the HTTP handler (src/backend/src/job/serve.rs:176-180).
Returns the new job together with the updated original, or `none` when the
job is not retryable (the Rust code rolls the transaction back). -/
def retryJob (j : Job) (newId now : Nat) : Option (Job × Job) :=
  if is_retryable j then
    some ({ id := newId
            platform := j.platform
            status := JobStatus.Queued
            started_at := none
            finished_at := none
            runner_id := none
            cpus := j.cpus
            memory_mb := j.memory_mb
            retried_job_id := none
            created_at := now
            previous_job_id := some j.id },
          { j with retried_job_id := some newId })
  else none

/-- Rank of a status along the lifecycle `Queued → Running → Complete(_)`. -/
def statusRank : JobStatus → Nat
  | JobStatus.Queued => 0
  | JobStatus.Running => 1
  | JobStatus.Complete _ => 2

/-! ## Resource manager (src/runner/src/resource_manager.rs) -/

inductive RejectionReason
  | InsufficientCPU (required available : Nat)
  | InsufficientMemory (required available : Nat)
  | InstanceLimitReached (current max : Nat)
  deriving DecidableEq, Repr

structure ResourceLimits where
  max_cpus : Nat
  max_memory_bytes : Nat
  max_instances : Option Nat
  deriving DecidableEq, Repr

/-- The job map `HashMap<Uuid, VM>` is modelled as an association list. -/
structure ResourceState where
  allocated_cpus : Nat
  allocated_memory : Nat
  jobs : List (Nat × VM)
  deriving DecidableEq, Repr

/-- `HashMap::insert`: replace the value when the key is present, otherwise
add the entry. -/
def insertJob (k : Nat) (v : VM) : List (Nat × VM) → List (Nat × VM)
  | [] => [(k, v)]
  | (k', v') :: rest =>
      if k = k' then (k, v) :: rest else (k', v') :: insertJob k v rest

/-- `HashMap::get`. -/
def lookupJob (k : Nat) : List (Nat × VM) → Option VM
  | [] => none
  | (k', v') :: rest => if k = k' then some v' else lookupJob k rest

/-- The removal part of `HashMap::remove`. -/
def eraseJob (k : Nat) : List (Nat × VM) → List (Nat × VM)
  | [] => []
  | (k', v') :: rest =>
      if k = k' then rest else (k', v') :: eraseJob k rest

/-- Embedding of `ResourceState::check_limits`
(src/runner/src/resource_manager.rs:76-115).  The instance cap is checked
first, then the CPU reserve, then the memory reserve; both reserves use
`saturating_sub`, which is Nat subtraction. -/
def check_limits (st : ResourceState) (cpus memory_bytes : Nat)
    (limits : ResourceLimits) : Option RejectionReason :=
  let instanceReject : Option RejectionReason :=
    match limits.max_instances with
    | some mi =>
        if mi ≤ st.jobs.length then
          some (RejectionReason.InstanceLimitReached st.jobs.length mi)
        else none
    | none => none
  match instanceReject with
  | some r => some r
  | none =>
      let available_cpus := limits.max_cpus - (st.allocated_cpus + 1)
      if available_cpus < cpus then
        some (RejectionReason.InsufficientCPU cpus available_cpus)
      else
        let available_memory :=
          limits.max_memory_bytes - (st.allocated_memory + 100 * 1024 * 1024)
        if available_memory < memory_bytes then
          some (RejectionReason.InsufficientMemory memory_bytes available_memory)
        else none

/-- Embedding of `ResourceManager::can_allocate`
(src/runner/src/resource_manager.rs:243-249): convert MB to bytes and ask
`check_limits`. -/
def can_allocate (st : ResourceState) (limits : ResourceLimits)
    (cpu_count memory_mb : Nat) : Bool :=
  (check_limits st cpu_count (memory_mb * 1024 * 1024) limits).isNone

/-- The RAII guard returned by `allocate_resources`
(src/runner/src/resource_manager.rs:403-436): both fields are `Some` until
`take()` disarms them. -/
structure ResourceGuard where
  job_id : Option Nat
  vm : Option VM
  deriving DecidableEq, Repr

/-- Embedding of `ResourceManager::allocate_resources`
(src/runner/src/resource_manager.rs:211-240): under one lock, check the
limits and on success bump both counters and insert the per-job VM entry,
returning an armed guard. -/
def allocate_resources (st : ResourceState) (limits : ResourceLimits)
    (job_id : Nat) (vm : VM) :
    Except RejectionReason (ResourceGuard × ResourceState) :=
  let memory_bytes := vm.memory_size_mb * 1024 * 1024
  match check_limits st vm.cpu_count memory_bytes limits with
  | some reason => Except.error reason
  | none =>
      Except.ok ({ job_id := some job_id, vm := some vm },
                 { allocated_cpus := st.allocated_cpus + vm.cpu_count
                   allocated_memory := st.allocated_memory + memory_bytes
                   jobs := insertJob job_id vm st.jobs })

/-- Embedding of `ResourceManager::release_job`
(src/runner/src/resource_manager.rs:252-272): remove the per-job VM entry;
when present, decrement both counters (`saturating_sub`) by the amounts
recorded in the removed entry. -/
def release_job (st : ResourceState) (job_id : Nat) :
    Option VM × ResourceState :=
  match lookupJob job_id st.jobs with
  | none => (none, st)
  | some vm =>
      (some vm,
       { allocated_cpus := st.allocated_cpus - vm.cpu_count
         allocated_memory := st.allocated_memory - vm.memory_size_mb * 1024 * 1024
         jobs := eraseJob job_id st.jobs })

/-- Embedding of `impl Drop for ResourceGuard`
(src/runner/src/resource_manager.rs:438-448): when the guard is still armed,
dropping it performs `release_job(job_id)`; a disarmed guard does nothing. -/
def dropGuard (g : ResourceGuard) (st : ResourceState) : ResourceState :=
  match g.job_id with
  | some j => (release_job st j).2
  | none => st

/-- The accounting invariant of claim C10: the CPU counter equals the sum of
`cpu_count` over the per-job VM map. -/
def cpusInv (st : ResourceState) : Prop :=
  st.allocated_cpus = (st.jobs.map (fun e => e.2.cpu_count)).sum

/-- The accounting invariant of claim C10 for memory (bytes). -/
def memInv (st : ResourceState) : Prop :=
  st.allocated_memory =
    (st.jobs.map (fun e => e.2.memory_size_mb * 1024 * 1024)).sum

instance (st : ResourceState) : Decidable (cpusInv st) := by
  unfold cpusInv; infer_instance

instance (st : ResourceState) : Decidable (memInv st) := by
  unfold memInv; infer_instance

/-! ## Cloud-config parsing (src/backend/src/runner/cloudconfig.rs)

The YAML surface syntax is deserialized by serde into the `Config`/`Cloud`/
`PlatformConfig` structures; the embedding starts from those structures and
models everything `FinalCloud::new` and `parse_memory` do with them. -/

inductive PlatformConfig
  | Simple (name : String)
  | Detailed (name : String) (memory : Option String) (cpus : Option Nat)
  deriving DecidableEq, Repr

structure Cloud where
  memory : Option String
  cpus : Option Nat
  platforms : Option (List PlatformConfig)
  deriving DecidableEq, Repr

/-- Rust `str::trim` at the character level: strip leading and trailing
whitespace. -/
def trimChars (l : List Char) : List Char :=
  (((l.dropWhile Char.isWhitespace).reverse).dropWhile Char.isWhitespace).reverse

/-- Rust `str::to_lowercase` at the character level (the inputs of interest
are ASCII). -/
def lowerChars (l : List Char) : List Char := l.map Char.toLower

/-- Rust `str::ends_with` at the character level. -/
def endsWithChars (pat l : List Char) : Bool := List.isSuffixOf pat l

/-- Drop the last `n` characters. -/
def dropRightChars (n : Nat) (l : List Char) : List Char := l.take (l.length - n)

/-- Rust `str::trim_end_matches(pat)`: repeatedly strip the suffix `pat`.
Implemented with fuel, one unit per removed occurrence. -/
def trimEndMatchesChars (pat : List Char) : Nat → List Char → List Char
  | 0, l => l
  | fuel + 1, l =>
      if endsWithChars pat l then
        trimEndMatchesChars pat fuel (dropRightChars pat.length l)
      else l

/-- Rust `str::parse::<u32>`: an optional leading plus sign followed by one
or more ASCII digits, value below 2^32. -/
def parseU32Chars (chars : List Char) : Option Nat :=
  let digits := if chars.head? = some '+' then chars.tail else chars
  if digits ≠ [] ∧ digits.all (fun c => c.isDigit) then
    let n := digits.foldl (fun acc c => acc * 10 + (c.toNat - 48)) 0
    if n < 2 ^ 32 then some n else none
  else none

/-- Embedding of `parse_memory` (src/backend/src/runner/cloudconfig.rs:182):
trim and lowercase, then dispatch on the `gb`/`mb` suffix (the number
keeps any trailing suffix repetitions stripped, then is trimmed again, as
`trim_end_matches(..).trim()` does); `1 GB = 1024 MB`.  The `u32`
multiplication `num * 1024` is taken modulo 2^32. -/
def parse_memory (s : String) : Except String Nat :=
  let t := lowerChars (trimChars s.data)
  if endsWithChars ['g', 'b'] t then
    match parseU32Chars (trimChars (trimEndMatchesChars ['g', 'b'] t.length t)) with
    | some num => Except.ok (num * 1024 % 2 ^ 32)
    | none => Except.error ("Invalid memory size: " ++ String.mk t)
  else if endsWithChars ['m', 'b'] t then
    match parseU32Chars (trimChars (trimEndMatchesChars ['m', 'b'] t.length t)) with
    | some num => Except.ok num
    | none => Except.error ("Invalid memory size: " ++ String.mk t)
  else
    Except.error ("Memory size must end with \x27mb\x27 or \x27gb\x27: " ++ String.mk t)

/-- The error message produced for an unknown platform name in
`FinalCloud::new` (src/backend/src/runner/cloudconfig.rs:84-87). -/
def platformError (name : String) : String :=
  "Platform \x27" ++ name ++
    "\x27 is not supported. Only \x27x86_64-linux\x27 and \x27aarch64-darwin\x27 are allowed"

/-- One platform entry of `FinalCloud::new`'s map (cloudconfig.rs:73-109):
validate the name, then resolve memory and cpus against the cloud-level
defaults. -/
def resolveEntry (cloud_memory_mb cloud_cpus : Nat) :
    PlatformConfig → Except String VM
  | entry =>
      let parts :=
        match entry with
        | PlatformConfig.Simple name => (name, none, none)
        | PlatformConfig.Detailed name memory cpus => (name, memory, cpus)
      match parts with
      | (name, memory_opt, cpus_opt) =>
          let platform? : Except String Platform :=
            if name = "x86_64-linux" then Except.ok Platform.X86_64Linux
            else if name = "aarch64-darwin" then Except.ok Platform.AArch64Darwin
            else Except.error (platformError name)
          match platform? with
          | Except.error e => Except.error e
          | Except.ok platform =>
              let memory? : Except String Nat :=
                match memory_opt with
                | some mem_str => parse_memory mem_str
                | none => Except.ok cloud_memory_mb
              match memory? with
              | Except.error e => Except.error e
              | Except.ok memory_mb =>
                  Except.ok { cpu_count := cpus_opt.getD cloud_cpus
                              memory_size_mb := memory_mb
                              platform := platform }

/-- Rust `collect::<Result<Vec<_>, _>>()`: stop at the first error. -/
def collectE (f : PlatformConfig → Except String VM) :
    List PlatformConfig → Except String (List VM)
  | [] => Except.ok []
  | e :: rest =>
      match f e with
      | Except.error msg => Except.error msg
      | Except.ok vm =>
          match collectE f rest with
          | Except.error msg => Except.error msg
          | Except.ok vms => Except.ok (vm :: vms)

/-- Embedding of `FinalCloud::new` (src/backend/src/runner/cloudconfig.rs:40),
starting after YAML deserialization: resolve the cloud defaults
(memory default "4gb", cpus default 2), default an absent platform list to
the two known platforms, and resolve every entry in listed order. -/
def finalCloudNew (cloud : Cloud) : Except String (List VM) :=
  match parse_memory (cloud.memory.getD "4gb") with
  | Except.error e => Except.error e
  | Except.ok cloud_memory_mb =>
      let cloud_cpus := cloud.cpus.getD 2
      let entries := cloud.platforms.getD
        [PlatformConfig.Simple "x86_64-linux",
         PlatformConfig.Simple "aarch64-darwin"]
      collectE (resolveEntry cloud_memory_mb cloud_cpus) entries

/-! ## Runner websocket handler (src/backend/src/runner/serve.rs:147-185) -/

/-- Embedding of `impl FromStr for Platform`
(src/runner/src/protocol.rs:35-45). -/
def platformFromStr (s : String) : Except String Platform :=
  if s = "x86_64-linux" then Except.ok Platform.X86_64Linux
  else if s = "aarch64-darwin" then Except.ok Platform.AArch64Darwin
  else Except.error ("Unknown platform: " ++ s)

/-- The platform the websocket handler registers the runner with
(src/backend/src/runner/serve.rs:155-164): the `X-Runner-Platform` header
value, defaulting to "x86_64-linux" when absent, parsed with
`unwrap_or(Platform::X86_64Linux)`.  Every header value leads to a
registration; there is no rejection path for an unrecognized platform. -/
def headerPlatform (header : Option String) : Platform :=
  let platform_str := header.getD "x86_64-linux"
  (platformFromStr platform_str).toOption.getD Platform.X86_64Linux

/-! ## Log service (src/logger/src/server.rs, src/logger/src/stream.rs)

A session's slice of the ordered key-value store is modelled as an
association list sorted by line number (the keys `"{uuid}-{16-hex-line}"`
order lexicographically exactly as the line numbers order numerically). -/

structure Log where
  message : String
  timestamp : String
  level : String
  deriving DecidableEq, Repr

structure LogWithLine where
  message : String
  timestamp : String
  level : String
  line : Nat
  deriving DecidableEq, Repr

/-- `db.put` on the sorted per-session store: insert by key, overwriting an
existing entry with the same key. -/
def putLine (k : Nat) (v : LogWithLine) :
    List (Nat × LogWithLine) → List (Nat × LogWithLine)
  | [] => [(k, v)]
  | (k', v') :: rest =>
      if k < k' then (k, v) :: (k', v') :: rest
      else if k = k' then (k, v) :: rest
      else (k', v') :: putLine k v rest

/-- The body of `post_logs` (src/logger/src/server.rs:53-107): a *local*
`line_counter` starts at 0 for this request, is incremented before each
record, and the record is stored under the key for that counter with the
counter as its `line` field. -/
def postLogsGo (counter : Nat) :
    List Log → List (Nat × LogWithLine) → List (Nat × LogWithLine)
  | [], store => store
  | l :: ls, store =>
      postLogsGo (counter + 1) ls
        (putLine (counter + 1)
          { message := l.message, timestamp := l.timestamp,
            level := l.level, line := counter + 1 } store)

/-- Embedding of one `POST /{session_uuid}` request handled by `post_logs`. -/
def post_logs (logs : List Log) (store : List (Nat × LogWithLine)) :
    List (Nat × LogWithLine) :=
  postLogsGo 0 logs store

/-- The largest u64, used as the exclusive upper end of the reader's scan
range (`LogLineKey::range_max`). -/
def u64Max : Nat := 2 ^ 64 - 1

/-- One `db.scan(key..range_max)` of `DbFetcher::into_stream`
(src/logger/src/stream.rs:76): all entries with line number at least the
cursor (inclusive) and below `u64::MAX` (exclusive), in key order. -/
def scanFrom (k : Nat) (store : List (Nat × LogWithLine)) :
    List (Nat × LogWithLine) :=
  store.filter (fun e => decide (k ≤ e.1 ∧ e.1 < u64Max))

/-- One iteration of the reader loop (src/logger/src/stream.rs:75-95): scan
from the cursor, yield every item found, incrementing the cursor once per
item *before* yielding it. -/
def readerPass (store : List (Nat × LogWithLine)) (k : Nat) :
    List LogWithLine × Nat :=
  let items := scanFrom k store
  (items.map Prod.snd, k + items.length)

/-- The concatenated output of the first `passes` iterations of the reader
loop over a fixed store, starting from cursor `k` (the stream starts at 0). -/
def readerRun (store : List (Nat × LogWithLine)) :
    Nat → Nat → List LogWithLine
  | 0, _ => []
  | passes + 1, k =>
      let p := readerPass store k
      p.1 ++ readerRun store passes p.2

/-! ## Concrete fixtures used by the claim theorems -/

def logA : Log := { message := "a", timestamp := "", level := "" }

def logB : Log := { message := "b", timestamp := "", level := "" }

def logC : Log := { message := "c", timestamp := "", level := "" }

def logD : Log := { message := "d", timestamp := "", level := "" }

def logE : Log := { message := "e", timestamp := "", level := "" }

/-- The session store after a first POST of `["a","b","c"]`. -/
def sessionStoreFirst : List (Nat × LogWithLine) := post_logs [logA, logB, logC] []

/-- The session store after a second POST of `["d","e"]` to the same session. -/
def sessionStoreBoth : List (Nat × LogWithLine) := post_logs [logD, logE] sessionStoreFirst

def queuedJob : Job :=
  { id := 1, platform := Platform.X86_64Linux, status := JobStatus.Queued,
    started_at := none, finished_at := none, runner_id := none,
    cpus := 2, memory_mb := 256, retried_job_id := none, created_at := 0,
    previous_job_id := none }

def successJob : Job :=
  { queuedJob with
    status := JobStatus.Complete CompletionStatus.Success,
    started_at := some 1, finished_at := some 5, runner_id := some 3 }

def failedJob : Job :=
  { queuedJob with
    status := JobStatus.Complete CompletionStatus.Failed,
    started_at := some 2, finished_at := some 8, runner_id := some 3 }

/-! ## C1 — log session sequence numbers and reader delivery -/

/-- C1: the claim says the write path assigns strictly increasing line
numbers starting at 1, monotonic across all writes to the session regardless
of how the records are split across POST requests, and that a reader opening
after the Nth write sees lines 1..N exactly once.  The code violates both
parts: `post_logs` keeps its `line_counter` local to one request, so the
second POST restarts at line 1 and overwrites the first POST's records, and
the reader's cursor is incremented before yielding, so the next scan pass
(inclusive lower bound) re-yields the last line.  This theorem evaluates the
embedded code on the failing input: after POST `["a","b","c"]` followed by
POST `["d","e"]` the store holds lines 1..3 with messages `d,e,c`, and a
reader of the single-POST store emits the last line twice. -/
theorem C1_log_line_divergence :
    sessionStoreFirst.map (fun e => (e.1, e.2.message)) =
      [(1, "a"), (2, "b"), (3, "c")] ∧
    sessionStoreBoth.map (fun e => (e.1, e.2.message)) =
      [(1, "d"), (2, "e"), (3, "c")] ∧
    (readerPass sessionStoreBoth 0).1.map LogWithLine.message = ["d", "e", "c"] ∧
    (readerRun sessionStoreFirst 3 0).map LogWithLine.message =
      ["a", "b", "c", "c"] := by
  decide

/-! ## C2 — the transactional claim update -/

/-- The per-row behaviour of the claim UPDATE. -/
lemma claimRow_spec (job_id runner_id : Nat) (j : Job) :
    (j.id = job_id ∧ j.status = JobStatus.Queued →
      claimRow job_id runner_id j =
        { j with status := JobStatus.Running, runner_id := some runner_id }) ∧
    (¬(j.id = job_id ∧ j.status = JobStatus.Queued) →
      claimRow job_id runner_id j = j) ∧
    (claimRow job_id runner_id j).started_at = j.started_at := by
  unfold claimRow
  by_cases h : j.id = job_id ∧ j.status = JobStatus.Queued
  · simp [h]
  · simp [h]

/-- With distinct job ids, at most one row matches the claim filter. -/
lemma claim_count_le_one (tbl : List Job) (job_id : Nat)
    (h : (tbl.map Job.id).Nodup) :
    tbl.countP (fun j => decide (j.id = job_id ∧ j.status = JobStatus.Queued)) ≤ 1 := by
  induction tbl with
  | nil => simp
  | cons a l ih =>
      simp only [List.map_cons, List.nodup_cons] at h
      rw [List.countP_cons]
      by_cases ha : a.id = job_id ∧ a.status = JobStatus.Queued
      · have hz :
            l.countP (fun j => decide (j.id = job_id ∧ j.status = JobStatus.Queued)) = 0 := by
          rw [List.countP_eq_zero]
          intro j hj
          simp only [decide_eq_true_eq, not_and]
          intro hid _
          have hmem : j.id ∈ List.map Job.id l := List.mem_map_of_mem Job.id hj
          rw [hid, ← ha.1] at hmem
          exact absurd hmem h.1
        rw [hz]
        simp [ha]
      · simpa [ha] using ih h.2

/-- The property proved about `claim_job_for_runner`: the UPDATE transforms
exactly the rows matching `id = job_id AND status = Queued` — setting status
to Running and `runner_id` to the runner, leaving `started_at` untouched —
returns whether exactly one row changed, and the serve-path follow-up that
would set `started_at` does nothing when the forge call fails. -/
def ClaimSpec (tbl : List Job) (job_id runner_id : Nat) : Prop :=
  List.Forall₂ (fun j j' =>
      (j.id = job_id ∧ j.status = JobStatus.Queued →
        j' = { j with status := JobStatus.Running, runner_id := some runner_id }) ∧
      (¬(j.id = job_id ∧ j.status = JobStatus.Queued) → j' = j) ∧
      j'.started_at = j.started_at)
    tbl (claim_job_for_runner tbl job_id runner_id).2 ∧
  ((claim_job_for_runner tbl job_id runner_id).1 = 1 ↔
    ∃ j ∈ tbl, j.id = job_id ∧ j.status = JobStatus.Queued) ∧
  (∀ now, claim_serve_path tbl job_id runner_id now false =
    (claim_job_for_runner tbl job_id runner_id).2)

/-- C2 counterexample: the claim states that the single atomic claim UPDATE
sets `started_at` to now (and that consequently every Running job has
`started_at` set).  On a concrete queued job the UPDATE reports exactly one
changed row and produces a Running job whose `started_at` is still `none`:
`started_at` is only written later, by a separate best-effort UPDATE inside
the forge status integration. -/
theorem C2_counterexample :
    (claim_job_for_runner [queuedJob] 1 7).1 = 1 ∧
    (claim_job_for_runner [queuedJob] 1 7).2 =
      [{ queuedJob with status := JobStatus.Running, runner_id := some 7 }] ∧
    ({ queuedJob with status := JobStatus.Running, runner_id := some 7 } : Job).status =
      JobStatus.Running ∧
    ({ queuedJob with status := JobStatus.Running, runner_id := some 7 } : Job).started_at =
      none := by
  decide

/-- C2 (amended): `claim(j,r)` performs one atomic UPDATE that sets status to
Running and `runner_id` to `r` exactly when the prior status was Queued, and
returns whether exactly one row changed; `started_at` is NOT set by this
update — it is written by a separate, best-effort follow-up update in the
serve path, so Running does not imply `started_at` is set. -/
theorem C2_claim_update (tbl : List Job) (job_id runner_id : Nat)
    (hids : (tbl.map Job.id).Nodup) :
    ClaimSpec tbl job_id runner_id ∧
    (claim_job_for_runner tbl job_id runner_id).1 ≤ 1 := by
  have hle := claim_count_le_one tbl job_id hids
  refine ⟨⟨?_, ?_, ?_⟩, hle⟩
  · unfold claim_job_for_runner
    simp only
    rw [List.forall₂_map_right_iff]
    rw [List.forall₂_same]
    intro j _
    exact claimRow_spec job_id runner_id j
  · show tbl.countP (fun j => decide (j.id = job_id ∧ j.status = JobStatus.Queued)) = 1 ↔ _
    constructor
    · intro h1
      have hpos :
          0 < tbl.countP (fun j => decide (j.id = job_id ∧ j.status = JobStatus.Queued)) := by
        omega
      rcases List.countP_pos_iff.mp hpos with ⟨j, hj, hdec⟩
      exact ⟨j, hj, of_decide_eq_true hdec⟩
    · rintro ⟨j, hj, hcond⟩
      have hpos :
          0 < tbl.countP (fun j => decide (j.id = job_id ∧ j.status = JobStatus.Queued)) :=
        List.countP_pos_iff.mpr ⟨j, hj, decide_eq_true hcond⟩
      omega
  · intro now
    unfold claim_serve_path
    simp

/-- C2 witness: the amended claim instantiated on a one-row table holding a
queued job; the serve path with a successful forge call then sets
`started_at` on the claimed row. -/
theorem C2_claim_update_witness :
    ([queuedJob].map Job.id).Nodup ∧
    (ClaimSpec [queuedJob] 1 7 ∧ (claim_job_for_runner [queuedJob] 1 7).1 ≤ 1) ∧
    claim_serve_path [queuedJob] 1 7 5 true =
      [{ queuedJob with
         status := JobStatus.Running, runner_id := some 7,
         started_at := some 5 }] :=
  ⟨by decide, C2_claim_update [queuedJob] 1 7 (by decide), by decide⟩

/-! ## C3 — the status lifecycle -/

/-- C3 counterexample: the claim says no status-mutating operation (the
`UpdateJobStatus` message path included) ever moves a job backwards or out
of a Complete state.  `Job::update_job_status` — the operation behind the
`UpdateJobStatus` message — performs an unguarded UPDATE: applied to a job
in `Complete(Success)` with reported status `Queued` it moves the job
backwards out of its terminal state. -/
theorem C3_counterexample :
    successJob.status = JobStatus.Complete CompletionStatus.Success ∧
    (update_job_status successJob JobStatus.Queued).status = JobStatus.Queued ∧
    statusRank ((update_job_status successJob JobStatus.Queued).status) <
      statusRank successJob.status := by
  decide

/-- C3 (amended): the claim path moves a job only from Queued to Running, the
cancel path moves a job only from Queued or Running to Complete(Cancelled)
(leaving any other state unchanged, so the only Queued skip is to
Complete(Cancelled)), and the complete path always lands in `Complete(_)`;
but the `UpdateJobStatus` message path writes the reported status
unconditionally, with no transition guard, so that path can move a job
backwards or out of a Complete state. -/
theorem C3_lifecycle_guards (j : Job) (job_id runner_id now : Nat)
    (s : JobStatus) (c : CompletionStatus) :
    (claimRow job_id runner_id j = j ∨
      (j.status = JobStatus.Queued ∧
        (claimRow job_id runner_id j).status = JobStatus.Running)) ∧
    ((cancelJob j now).2 = j ∨
      ((j.status = JobStatus.Queued ∨ j.status = JobStatus.Running) ∧
        (cancelJob j now).2.status = JobStatus.Complete CompletionStatus.Cancelled)) ∧
    (completeJob j c now).status = JobStatus.Complete c ∧
    (update_job_status j s).status = s := by
  refine ⟨?_, ?_, rfl, rfl⟩
  · unfold claimRow
    by_cases h : j.id = job_id ∧ j.status = JobStatus.Queued
    · exact Or.inr ⟨h.2, by simp [h]⟩
    · exact Or.inl (by simp [h])
  · unfold cancelJob completeJob
    rcases hs : j.status with _ | _ | c'
    · exact Or.inr ⟨Or.inl rfl, rfl⟩
    · exact Or.inr ⟨Or.inr rfl, rfl⟩
    · exact Or.inl rfl

/-! ## C4 — cancellation -/

/-- The property proved about `Job::cancel`: success exactly on Queued or
Running, Cancelled terminal state with `finished_at` recorded, no change on
a non-cancellable job, and idempotence of a second cancel. -/
def CancelSpec (j : Job) (now now2 : Nat) : Prop :=
  ((cancelJob j now).1 = true ↔
    (j.status = JobStatus.Queued ∨ j.status = JobStatus.Running)) ∧
  ((cancelJob j now).1 = true →
    (cancelJob j now).2.status = JobStatus.Complete CompletionStatus.Cancelled ∧
    (cancelJob j now).2.finished_at = some now) ∧
  ((cancelJob j now).1 = false → (cancelJob j now).2 = j) ∧
  ((cancelJob j now).1 = true →
    cancelJob (cancelJob j now).2 now2 = (false, (cancelJob j now).2))

/-- C4: `cancel(j)` transitions to Complete(Cancelled) with `finished_at`
set iff the prior status is Queued or Running; otherwise it returns false
and leaves the row unchanged; in particular a second cancel after a
successful one returns `did_cancel = false` and does not change
`finished_at`. -/
theorem C4_cancel_idempotent (j : Job) (now now2 : Nat) :
    CancelSpec j now now2 := by
  unfold CancelSpec cancelJob completeJob
  rcases hs : j.status with _ | _ | c <;> simp

/-- C4 witness: cancelling a concrete queued job succeeds, records
`finished_at`, and a second cancel is refused without touching the row. -/
theorem C4_cancel_witness :
    (cancelJob queuedJob 3).1 = true ∧
    (cancelJob queuedJob 3).2.status = JobStatus.Complete CompletionStatus.Cancelled ∧
    (cancelJob queuedJob 3).2.finished_at = some 3 ∧
    cancelJob (cancelJob queuedJob 3).2 9 = (false, (cancelJob queuedJob 3).2) := by
  have h := C4_cancel_idempotent queuedJob 3 9
  have ht : (cancelJob queuedJob 3).1 = true := h.1.mpr (Or.inl rfl)
  exact ⟨ht, (h.2.1 ht).1, (h.2.1 ht).2, h.2.2.2 ht⟩

/-! ## C5 — retry -/

/-- `is_retryable` characterised. -/
lemma is_retryable_iff (j : Job) :
    is_retryable j = true ↔
      ∃ c, j.status = JobStatus.Complete c ∧ c ≠ CompletionStatus.Success := by
  unfold is_retryable
  rcases hs : j.status with _ | _ | c <;> simp

/-- The property proved about `Job::retry`: it succeeds iff the status is
`Complete(x)` with `x ≠ Success`; on success the new job is Queued, copies
platform/cpus/memory_mb, and the retry links are symmetric; on a
non-retryable status no job is created. -/
def RetrySpec (j : Job) (newId now : Nat) : Prop :=
  ((retryJob j newId now).isSome = true ↔
    ∃ c, j.status = JobStatus.Complete c ∧ c ≠ CompletionStatus.Success) ∧
  (∀ b a, retryJob j newId now = some (b, a) →
    b.status = JobStatus.Queued ∧ b.platform = j.platform ∧ b.cpus = j.cpus ∧
    b.memory_mb = j.memory_mb ∧ b.previous_job_id = some j.id ∧ b.id = newId ∧
    a.retried_job_id = some b.id ∧ a = { j with retried_job_id := some newId }) ∧
  (retryJob j newId now = none ↔ is_retryable j = false)

/-- C5: `retry(A)` succeeds iff A is `Complete(x)` with `x ≠ Success`; on
success the inserted job B is Queued, copies A's platform, cpus and
memory_mb, and `B.previous_job_id = A.id ∧ A.retried_job_id = B.id` (both
written in the one enclosing transaction of the retry handler); on a
non-retryable status it fails without creating a job. -/
theorem C5_retry_links (j : Job) (newId now : Nat) : RetrySpec j newId now := by
  refine ⟨?_, ?_, ?_⟩
  · rw [← is_retryable_iff]
    unfold retryJob
    by_cases h : is_retryable j = true
    · simp [h]
    · simp [h]
  · intro b a hsome
    unfold retryJob at hsome
    by_cases h : is_retryable j = true
    · rw [if_pos h] at hsome
      obtain ⟨rfl, rfl⟩ := Prod.mk.inj (Option.some.inj hsome)
      exact ⟨rfl, rfl, rfl, rfl, rfl, rfl, rfl, rfl⟩
    · rw [if_neg h] at hsome
      exact absurd hsome (by simp)
  · unfold retryJob
    by_cases h : is_retryable j = true
    · simp [h]
    · simp [h]

/-- C5 witness: retrying a concrete failed job creates the linked queued
copy, and the amended specification holds at that instance. -/
theorem C5_retry_witness :
    retryJob failedJob 42 10 =
      some ({ id := 42, platform := failedJob.platform, status := JobStatus.Queued,
              started_at := none, finished_at := none, runner_id := none,
              cpus := failedJob.cpus, memory_mb := failedJob.memory_mb,
              retried_job_id := none, created_at := 10,
              previous_job_id := some failedJob.id },
            { failedJob with retried_job_id := some 42 }) ∧
    RetrySpec failedJob 42 10 :=
  ⟨by decide, C5_retry_links failedJob 42 10⟩

/-! ## C6 — resource admission (`check_limits` / `can_allocate`) -/

/-- The instance-cap side condition of `check_limits`. -/
def instanceCapOk (st : ResourceState) (limits : ResourceLimits) : Bool :=
  match limits.max_instances with
  | some mi => decide (st.jobs.length < mi)
  | none => true

/-- `check_limits` passes iff the instance cap is open and both truncated
reserves admit the request. -/
lemma check_limits_none_iff (st : ResourceState) (cpus memory_bytes : Nat)
    (limits : ResourceLimits) :
    check_limits st cpus memory_bytes limits = none ↔
      (instanceCapOk st limits = true ∧
        cpus ≤ limits.max_cpus - (st.allocated_cpus + 1) ∧
        memory_bytes ≤
          limits.max_memory_bytes - (st.allocated_memory + 100 * 1024 * 1024)) := by
  obtain ⟨mc, mm, mi⟩ := limits
  unfold check_limits instanceCapOk
  cases mi with
  | none =>
      simp only
      split_ifs with h1 h2 <;> simp <;> omega
  | some k =>
      simp only
      split_ifs with h0 h1 h2 <;> simp <;> omega

/-- `can_allocate` in terms of `check_limits`. -/
lemma can_allocate_iff_check (st : ResourceState) (limits : ResourceLimits)
    (cpu_count memory_mb : Nat) :
    can_allocate st limits cpu_count memory_mb = true ↔
      check_limits st cpu_count (memory_mb * 1024 * 1024) limits = none := by
  unfold can_allocate
  cases h : check_limits st cpu_count (memory_mb * 1024 * 1024) limits <;> simp [h]

/-- The property proved about admission: the exact truncated-subtraction
characterisations of `can_allocate`, its agreement with the claimed
inequalities for nonzero requests, and `allocate_resources` succeeding under
the same condition with the matching rejection reason otherwise (instance
cap checked first, then CPU, then memory). -/
def AllocSpec (st : ResourceState) (limits : ResourceLimits) (job_id : Nat)
    (vm : VM) : Prop :=
  (can_allocate st limits vm.cpu_count vm.memory_size_mb = true ↔
    (instanceCapOk st limits = true ∧
      vm.cpu_count ≤ limits.max_cpus - (st.allocated_cpus + 1) ∧
      vm.memory_size_mb * 1024 * 1024 ≤
        limits.max_memory_bytes - (st.allocated_memory + 100 * 1024 * 1024))) ∧
  (1 ≤ vm.cpu_count → 1 ≤ vm.memory_size_mb →
    (can_allocate st limits vm.cpu_count vm.memory_size_mb = true ↔
      (instanceCapOk st limits = true ∧
        st.allocated_cpus + vm.cpu_count + 1 ≤ limits.max_cpus ∧
        st.allocated_memory + vm.memory_size_mb * 1024 * 1024 + 100 * 1024 * 1024 ≤
          limits.max_memory_bytes))) ∧
  ((allocate_resources st limits job_id vm).toOption.isSome = true ↔
    can_allocate st limits vm.cpu_count vm.memory_size_mb = true) ∧
  (∀ mi, limits.max_instances = some mi → mi ≤ st.jobs.length →
    allocate_resources st limits job_id vm =
      Except.error (RejectionReason.InstanceLimitReached st.jobs.length mi)) ∧
  (instanceCapOk st limits = true →
    limits.max_cpus - (st.allocated_cpus + 1) < vm.cpu_count →
    allocate_resources st limits job_id vm =
      Except.error (RejectionReason.InsufficientCPU vm.cpu_count
        (limits.max_cpus - (st.allocated_cpus + 1)))) ∧
  (instanceCapOk st limits = true →
    vm.cpu_count ≤ limits.max_cpus - (st.allocated_cpus + 1) →
    limits.max_memory_bytes - (st.allocated_memory + 100 * 1024 * 1024) <
      vm.memory_size_mb * 1024 * 1024 →
    allocate_resources st limits job_id vm =
      Except.error (RejectionReason.InsufficientMemory
        (vm.memory_size_mb * 1024 * 1024)
        (limits.max_memory_bytes - (st.allocated_memory + 100 * 1024 * 1024))))

/-- C6 counterexample: the claim states
`can_allocate(c, m) ⇔ used_cpu + c + 1 ≤ max_cpu ∧ used_mem + m + 100MiB ≤ max_mem`.
With 2 max cpus, 50 MiB max memory and an empty state, the request
`(c, m) = (1, 0)` — exactly the request `has_minimal_capacity` issues — is
accepted by the code (`saturating_sub` truncates the memory reserve to 0),
although the claimed right-hand side is false because the 100 MiB reserve
alone exceeds the memory limit. -/
theorem C6_counterexample :
    can_allocate ⟨0, 0, []⟩ ⟨2, 50 * 1024 * 1024, none⟩ 1 0 = true ∧
    ¬((0 + 1 + 1 ≤ 2) ∧ (0 + 0 * 1024 * 1024 + 100 * 1024 * 1024 ≤ 50 * 1024 * 1024)) := by
  exact ⟨by decide, by decide⟩

/-- When the instance cap is reached, `check_limits` rejects with
`InstanceLimitReached` regardless of the request. -/
lemma check_limits_instance (st : ResourceState) (cpus mb : Nat)
    (limits : ResourceLimits) (k : Nat) (hmi : limits.max_instances = some k)
    (hlen : k ≤ st.jobs.length) :
    check_limits st cpus mb limits =
      some (RejectionReason.InstanceLimitReached st.jobs.length k) := by
  unfold check_limits
  rw [hmi]
  simp [hlen]

/-- With the instance cap open, a request exceeding the truncated CPU
reserve rejects with `InsufficientCPU`. -/
lemma check_limits_cpu (st : ResourceState) (cpus mb : Nat)
    (limits : ResourceLimits) (hinst : instanceCapOk st limits = true)
    (hcpu : limits.max_cpus - (st.allocated_cpus + 1) < cpus) :
    check_limits st cpus mb limits =
      some (RejectionReason.InsufficientCPU cpus
        (limits.max_cpus - (st.allocated_cpus + 1))) := by
  unfold check_limits
  unfold instanceCapOk at hinst
  cases hmi : limits.max_instances with
  | none =>
      simp only
      rw [if_pos hcpu]
  | some k =>
      rw [hmi] at hinst
      simp only at hinst
      have hk : ¬(k ≤ st.jobs.length) := by
        have := of_decide_eq_true hinst
        omega
      simp only
      rw [if_neg hk]
      simp only
      rw [if_pos hcpu]

/-- With the instance cap open and the CPU reserve satisfied, a request
exceeding the truncated memory reserve rejects with `InsufficientMemory`. -/
lemma check_limits_memory (st : ResourceState) (cpus mb : Nat)
    (limits : ResourceLimits) (hinst : instanceCapOk st limits = true)
    (hcpu : cpus ≤ limits.max_cpus - (st.allocated_cpus + 1))
    (hmem : limits.max_memory_bytes - (st.allocated_memory + 100 * 1024 * 1024) < mb) :
    check_limits st cpus mb limits =
      some (RejectionReason.InsufficientMemory mb
        (limits.max_memory_bytes - (st.allocated_memory + 100 * 1024 * 1024))) := by
  unfold check_limits
  unfold instanceCapOk at hinst
  cases hmi : limits.max_instances with
  | none =>
      simp only
      rw [if_neg (by omega), if_pos hmem]
  | some k =>
      rw [hmi] at hinst
      simp only at hinst
      have hk : ¬(k ≤ st.jobs.length) := by
        have := of_decide_eq_true hinst
        omega
      simp only
      rw [if_neg hk]
      simp only
      rw [if_neg (by omega), if_pos hmem]

/-- C6 (amended): `can_allocate(c, m)` returns true iff the instance cap is
open and `c ≤ max_cpu ∸ (used_cpu + 1)` and `m·2^20 ≤ max_mem ∸ (used_mem +
100MiB)` with truncating subtraction; this coincides with the claimed
inequalities whenever `c ≥ 1` and `m ≥ 1`.  `allocate_resources` succeeds
under exactly the same condition and otherwise returns the matching explicit
rejection reason, checking the instance cap first, then CPU, then memory. -/
theorem C6_admission (st : ResourceState) (limits : ResourceLimits)
    (job_id : Nat) (vm : VM) : AllocSpec st limits job_id vm := by
  refine ⟨?_, ?_, ?_, ?_, ?_, ?_⟩
  · rw [can_allocate_iff_check, check_limits_none_iff]
  · intro hc hm
    rw [can_allocate_iff_check, check_limits_none_iff]
    have hmb : 1 ≤ vm.memory_size_mb * 1024 * 1024 :=
      Nat.mul_pos (Nat.mul_pos hm (by norm_num)) (by norm_num)
    constructor
    · rintro ⟨hi, h1, h2⟩
      exact ⟨hi, by omega, by omega⟩
    · rintro ⟨hi, h1, h2⟩
      exact ⟨hi, by omega, by omega⟩
  · unfold allocate_resources
    rw [can_allocate_iff_check]
    cases h : check_limits st vm.cpu_count (vm.memory_size_mb * 1024 * 1024) limits <;>
      simp [h, Except.toOption]
  · intro k hk hlen
    unfold allocate_resources
    dsimp only
    rw [check_limits_instance st vm.cpu_count (vm.memory_size_mb * 1024 * 1024)
      limits k hk hlen]
  · intro hi hcpu
    unfold allocate_resources
    dsimp only
    rw [check_limits_cpu st vm.cpu_count (vm.memory_size_mb * 1024 * 1024) limits hi hcpu]
  · intro hi hcpu hmem
    unfold allocate_resources
    dsimp only
    rw [check_limits_memory st vm.cpu_count (vm.memory_size_mb * 1024 * 1024)
      limits hi hcpu hmem]

/-- C6 witness: the amended admission specification at a concrete state,
together with a concrete accepted allocation and a concrete CPU rejection. -/
theorem C6_admission_witness :
    AllocSpec ⟨0, 0, []⟩ ⟨4, 1024 * 1024 * 1024, none⟩ 1 ⟨2, 512, Platform.X86_64Linux⟩ ∧
    can_allocate ⟨0, 0, []⟩ ⟨4, 1024 * 1024 * 1024, none⟩ 2 512 = true ∧
    allocate_resources ⟨3, 0, []⟩ ⟨4, 1024 * 1024 * 1024, none⟩ 1
        ⟨2, 512, Platform.X86_64Linux⟩ =
      Except.error (RejectionReason.InsufficientCPU 2 0) :=
  ⟨C6_admission ⟨0, 0, []⟩ ⟨4, 1024 * 1024 * 1024, none⟩ 1 ⟨2, 512, Platform.X86_64Linux⟩,
   by decide, by rfl⟩

/-! ## C8 / C10 — guard release and accounting: list lemmas -/

lemma lookupJob_insertJob_self (k : Nat) (v : VM) (l : List (Nat × VM)) :
    lookupJob k (insertJob k v l) = some v := by
  induction l with
  | nil => simp [insertJob, lookupJob]
  | cons e rest ih =>
      obtain ⟨k', v'⟩ := e
      unfold insertJob
      by_cases h : k = k'
      · rw [if_pos h]
        simp [lookupJob]
      · rw [if_neg h]
        unfold lookupJob
        rw [if_neg h]
        exact ih

lemma insertJob_fresh (k : Nat) (v : VM) (l : List (Nat × VM))
    (h : lookupJob k l = none) : insertJob k v l = l ++ [(k, v)] := by
  induction l with
  | nil => rfl
  | cons e rest ih =>
      obtain ⟨k', v'⟩ := e
      unfold lookupJob at h
      by_cases hk : k = k'
      · rw [if_pos hk] at h
        exact absurd h (by simp)
      · rw [if_neg hk] at h
        unfold insertJob
        rw [if_neg hk, ih h]
        rfl

lemma lookupJob_append_last (k : Nat) (v : VM) (l : List (Nat × VM))
    (h : lookupJob k l = none) : lookupJob k (l ++ [(k, v)]) = some v := by
  induction l with
  | nil => simp [lookupJob]
  | cons e rest ih =>
      obtain ⟨k', v'⟩ := e
      rw [List.cons_append]
      simp only [lookupJob] at h ⊢
      by_cases hk : k = k'
      · rw [if_pos hk] at h
        exact absurd h (by simp)
      · rw [if_neg hk] at h ⊢
        exact ih h

lemma eraseJob_append_last (k : Nat) (v : VM) (l : List (Nat × VM))
    (h : lookupJob k l = none) : eraseJob k (l ++ [(k, v)]) = l := by
  induction l with
  | nil => simp [eraseJob]
  | cons e rest ih =>
      obtain ⟨k', v'⟩ := e
      unfold lookupJob at h
      by_cases hk : k = k'
      · rw [if_pos hk] at h
        exact absurd h (by simp)
      · rw [if_neg hk] at h
        show eraseJob k ((k', v') :: (rest ++ [(k, v)])) = (k', v') :: rest
        unfold eraseJob
        rw [if_neg hk, ih h]

lemma sum_eraseJob (f : Nat × VM → Nat) (k : Nat) (v : VM)
    (l : List (Nat × VM)) (h : lookupJob k l = some v) :
    ((eraseJob k l).map f).sum + f (k, v) = (l.map f).sum := by
  induction l with
  | nil => simp [lookupJob] at h
  | cons e rest ih =>
      obtain ⟨k', v'⟩ := e
      unfold lookupJob at h
      by_cases hk : k = k'
      · rw [if_pos hk] at h
        have hv : v' = v := Option.some.inj h
        subst hv
        subst hk
        unfold eraseJob
        rw [if_pos rfl]
        simp only [List.map_cons, List.sum_cons]
        omega
      · rw [if_neg hk] at h
        unfold eraseJob
        rw [if_neg hk]
        simp only [List.map_cons, List.sum_cons]
        have := ih h
        omega

/-! ## C8 — RAII guard release -/

/-- The property proved about the guard returned by a successful
`allocate_resources` on a state not already holding the job: the guard is
armed with exactly this job and VM; dropping it performs the one matching
release — both counters come back down by the allocated amounts and the
per-job entry is removed, restoring the pre-allocation state exactly — and
afterwards a further release of the same job is a no-op (no double
release); on the pre-allocation state release is likewise a no-op (no
release before the allocation's drop). -/
def GuardSpec (st : ResourceState) (job_id : Nat) (vm : VM)
    (g : ResourceGuard) (st' : ResourceState) : Prop :=
  g.job_id = some job_id ∧ g.vm = some vm ∧
  release_job st' job_id = (some vm, st) ∧
  dropGuard g st' = st ∧
  release_job (dropGuard g st') job_id = (none, dropGuard g st') ∧
  release_job st job_id = (none, st)

/-- C8: for every successful `allocate_resources(job_id, vm)` from a state
without that job, exactly one matching release happens when the returned
guard is dropped — the counters are decremented by the allocated amounts and
the per-job VM entry is removed, restoring the previous state — and
resources are released neither twice (a second release of the job is a
no-op) nor before the drop (the job is absent from the pre-allocation
state).  The drop action models `impl Drop for ResourceGuard`, which Rust
runs exactly once even when the owning task panics. -/
theorem C8_guard_release (st : ResourceState) (limits : ResourceLimits)
    (job_id : Nat) (vm : VM) (g : ResourceGuard) (st' : ResourceState)
    (hfresh : lookupJob job_id st.jobs = none)
    (halloc : allocate_resources st limits job_id vm = Except.ok (g, st')) :
    GuardSpec st job_id vm g st' := by
  unfold allocate_resources at halloc
  dsimp only at halloc
  cases hc : check_limits st vm.cpu_count (vm.memory_size_mb * 1024 * 1024) limits with
  | some r =>
      rw [hc] at halloc
      exact absurd halloc (by simp)
  | none =>
      rw [hc] at halloc
      simp only [Except.ok.injEq] at halloc
      obtain ⟨hg, hst'⟩ := Prod.mk.inj halloc.symm
      subst hg
      subst hst'
      obtain ⟨ac, am, jobs⟩ := st
      simp only at hfresh
      have hins := insertJob_fresh job_id vm jobs hfresh
      have hrel :
          release_job
            { allocated_cpus := ac + vm.cpu_count,
              allocated_memory := am + vm.memory_size_mb * 1024 * 1024,
              jobs := insertJob job_id vm jobs } job_id =
            (some vm, ⟨ac, am, jobs⟩) := by
        unfold release_job
        simp only [hins, lookupJob_append_last job_id vm jobs hfresh,
          eraseJob_append_last job_id vm jobs hfresh]
        simp only [Nat.add_sub_cancel]
      have hdrop :
          dropGuard { job_id := some job_id, vm := some vm }
            { allocated_cpus := ac + vm.cpu_count,
              allocated_memory := am + vm.memory_size_mb * 1024 * 1024,
              jobs := insertJob job_id vm jobs } = ⟨ac, am, jobs⟩ := by
        unfold dropGuard
        dsimp only
        rw [hrel]
      refine ⟨rfl, rfl, hrel, hdrop, ?_, ?_⟩
      · rw [hdrop]
        unfold release_job
        simp only [hfresh]
      · unfold release_job
        simp only [hfresh]

/-- C8 witness: a concrete allocation of 2 cpus / 512 MB from the empty
state, whose guard drop restores the empty state. -/
theorem C8_guard_release_witness :
    lookupJob 1 (⟨0, 0, []⟩ : ResourceState).jobs = none ∧
    allocate_resources ⟨0, 0, []⟩ ⟨8, 8589934592, none⟩ 1 ⟨2, 512, Platform.X86_64Linux⟩ =
      Except.ok (⟨some 1, some ⟨2, 512, Platform.X86_64Linux⟩⟩,
        ⟨2, 536870912, [(1, ⟨2, 512, Platform.X86_64Linux⟩)]⟩) ∧
    GuardSpec ⟨0, 0, []⟩ 1 ⟨2, 512, Platform.X86_64Linux⟩
      ⟨some 1, some ⟨2, 512, Platform.X86_64Linux⟩⟩
      ⟨2, 536870912, [(1, ⟨2, 512, Platform.X86_64Linux⟩)]⟩ :=
  ⟨rfl, by rfl,
   C8_guard_release ⟨0, 0, []⟩ ⟨8, 8589934592, none⟩ 1 ⟨2, 512, Platform.X86_64Linux⟩
     ⟨some 1, some ⟨2, 512, Platform.X86_64Linux⟩⟩
     ⟨2, 536870912, [(1, ⟨2, 512, Platform.X86_64Linux⟩)]⟩ rfl (by rfl)⟩

/-! ## C10 — counter/map accounting invariant -/

def vmA : VM := ⟨2, 512, Platform.X86_64Linux⟩

def vmB : VM := ⟨1, 256, Platform.X86_64Linux⟩

def bigLimits : ResourceLimits := ⟨100, 1099511627776, none⟩

def dupState1 : ResourceState := ⟨2, 536870912, [(1, vmA)]⟩

def dupState2 : ResourceState := ⟨3, 805306368, [(1, vmB)]⟩

/-- C10 counterexample: the claim states that `allocate_resources` preserves
the invariant `allocated_cpus = Σ cpu_count` (and likewise for memory) from
the empty state.  Allocating twice under the same job id breaks it: the
counters add both allocations while `HashMap::insert` keeps only the second
entry, leaving `allocated_cpus = 3` against a map summing to 1. -/
theorem C10_counterexample :
    allocate_resources ⟨0, 0, []⟩ bigLimits 1 vmA =
      Except.ok (⟨some 1, some vmA⟩, dupState1) ∧
    cpusInv dupState1 ∧ memInv dupState1 ∧
    allocate_resources dupState1 bigLimits 1 vmB =
      Except.ok (⟨some 1, some vmB⟩, dupState2) ∧
    dupState2.allocated_cpus = 3 ∧
    ((dupState2.jobs.map (fun e => e.2.cpu_count)).sum = 1) ∧
    ¬cpusInv dupState2 ∧ ¬memInv dupState2 := by
  exact ⟨by rfl, by decide, by decide, by rfl, by decide, by decide,
    by decide, by decide⟩

/-- The property proved about the accounting: the invariant holds in the
empty state, is preserved by `allocate_resources` for a job id not already
in the map, and is preserved unconditionally by `release_job`. -/
def AccountingSpec : Prop :=
  (cpusInv ⟨0, 0, []⟩ ∧ memInv ⟨0, 0, []⟩) ∧
  (∀ st limits job_id vm g st',
    cpusInv st → memInv st → lookupJob job_id st.jobs = none →
    allocate_resources st limits job_id vm = Except.ok (g, st') →
    cpusInv st' ∧ memInv st') ∧
  (∀ st job_id, cpusInv st → memInv st →
    cpusInv (release_job st job_id).2 ∧ memInv (release_job st job_id).2)

/-- C10 (amended): starting from the empty state, `allocated_cpus` equals
the sum of `cpu_count` over the per-job VM map and `allocated_memory` the
sum of `memory_size_mb·2^20`, and the invariant is preserved by
`release_job` unconditionally and by `allocate_resources` provided the job
id is not already allocated (a duplicate allocation under the same id
double-counts the counters, as the counterexample shows). -/
theorem C10_accounting : AccountingSpec := by
  refine ⟨⟨rfl, rfl⟩, ?_, ?_⟩
  · intro st limits job_id vm g st' hcpu hmem hfresh halloc
    unfold allocate_resources at halloc
    dsimp only at halloc
    cases hc : check_limits st vm.cpu_count (vm.memory_size_mb * 1024 * 1024) limits with
    | some r =>
        rw [hc] at halloc
        exact absurd halloc (by simp)
    | none =>
        rw [hc] at halloc
        simp only [Except.ok.injEq] at halloc
        obtain ⟨hg, hst'⟩ := Prod.mk.inj halloc.symm
        subst hst'
        unfold cpusInv at hcpu ⊢
        unfold memInv at hmem ⊢
        simp only
        rw [insertJob_fresh job_id vm st.jobs hfresh]
        simp only [List.map_append, List.sum_append, List.map_cons,
          List.sum_cons, List.map_nil, List.sum_nil]
        omega
  · intro st job_id hcpu hmem
    unfold release_job
    cases hl : lookupJob job_id st.jobs with
    | none => exact ⟨hcpu, hmem⟩
    | some vm =>
        unfold cpusInv at hcpu ⊢
        unfold memInv at hmem ⊢
        simp only
        have h1 := sum_eraseJob (fun e => e.2.cpu_count) job_id vm st.jobs hl
        have h2 := sum_eraseJob (fun e => e.2.memory_size_mb * 1024 * 1024)
          job_id vm st.jobs hl
        simp only at h1 h2
        omega

/-- C10 witness: the accounting specification applied to a concrete fresh
allocation and a concrete release. -/
theorem C10_accounting_witness :
    (cpusInv dupState1 ∧ memInv dupState1) ∧
    (cpusInv (release_job dupState1 1).2 ∧ memInv (release_job dupState1 1).2) := by
  have h := C10_accounting
  have h1 := h.2.1 ⟨0, 0, []⟩ bigLimits 1 vmA ⟨some 1, some vmA⟩ dupState1
    (by decide) (by decide) (by decide) (by rfl)
  exact ⟨h1, h.2.2 dupState1 1 h1.1 h1.2⟩

/-! ## C7 — cloud-config parsing -/

/-- `collectE` succeeding means every entry resolved, pointwise in order. -/
lemma collectE_ok_forall (f : PlatformConfig → Except String VM)
    (entries : List PlatformConfig) (vms : List VM)
    (h : collectE f entries = Except.ok vms) :
    List.Forall₂ (fun e vm => f e = Except.ok vm) entries vms := by
  induction entries generalizing vms with
  | nil =>
      have hv : ([] : List VM) = vms := Except.ok.inj h
      subst hv
      exact List.Forall₂.nil
  | cons e rest ih =>
      unfold collectE at h
      cases hf : f e with
      | error msg =>
          rw [hf] at h
          exact absurd h (by simp)
      | ok vm =>
          rw [hf] at h
          cases hr : collectE f rest with
          | error msg =>
              rw [hr] at h
              exact absurd h (by simp)
          | ok vms' =>
              rw [hr] at h
              have hv : vm :: vms' = vms := Except.ok.inj h
              subst hv
              exact List.Forall₂.cons hf (ih vms' hr)

/-- Unfolded shape of `resolveEntry` on a detailed entry. -/
lemma resolveEntry_detailed (cm cc : Nat) (name : String)
    (memory : Option String) (cpus : Option Nat) :
    resolveEntry cm cc (PlatformConfig.Detailed name memory cpus) =
      match (if name = "x86_64-linux" then Except.ok Platform.X86_64Linux
             else if name = "aarch64-darwin" then Except.ok Platform.AArch64Darwin
             else Except.error (platformError name) : Except String Platform) with
      | Except.error e => Except.error e
      | Except.ok platform =>
          match (match memory with
                 | some mem_str => parse_memory mem_str
                 | none => Except.ok cm : Except String Nat) with
          | Except.error e => Except.error e
          | Except.ok memory_mb =>
              Except.ok { cpu_count := cpus.getD cc, memory_size_mb := memory_mb,
                          platform := platform } := rfl

/-- The memory/cpus resolution of a detailed entry, after a valid name. -/
lemma resolveEntry_tail_inv (cm cc : Nat) (cpus : Option Nat) (vm : VM)
    (pf : Platform) (memory : Option String)
    (h : (match (match memory with
                 | some mem_str => parse_memory mem_str
                 | none => Except.ok cm : Except String Nat) with
          | Except.error e => Except.error e
          | Except.ok memory_mb =>
              Except.ok { cpu_count := cpus.getD cc, memory_size_mb := memory_mb,
                          platform := pf }) = Except.ok vm) :
    vm.cpu_count = cpus.getD cc ∧
    (memory = none → vm.memory_size_mb = cm) ∧
    (∀ s, memory = some s → parse_memory s = Except.ok vm.memory_size_mb) := by
  cases memory with
  | none =>
      simp only at h
      have hv := Except.ok.inj h
      subst hv
      refine ⟨rfl, fun _ => rfl, ?_⟩
      intro s hs
      exact absurd hs (by simp)
  | some mem_str =>
      simp only at h
      cases hp : parse_memory mem_str with
      | error e =>
          rw [hp] at h
          exact absurd h (by simp)
      | ok mb =>
          rw [hp] at h
          have hv := Except.ok.inj h
          subst hv
          refine ⟨rfl, ?_, ?_⟩
          · intro hno
            exact absurd hno (by simp)
          · intro s hs
            have hms : mem_str = s := Option.some.inj hs
            subst hms
            exact hp

/-- The scenario document of the claim:
memory 200mb, cpus 2, platforms `[{name: x86_64-linux, memory: 150mb},
aarch64-darwin]`. -/
def exampleCloud : Cloud :=
  { memory := some "200mb", cpus := some 2,
    platforms := some [PlatformConfig.Detailed "x86_64-linux" (some "150mb") none,
                       PlatformConfig.Simple "aarch64-darwin"] }

/-- The same document with the first entry's name replaced by
`custom-platform`. -/
def badCloud : Cloud :=
  { exampleCloud with
    platforms := some [PlatformConfig.Detailed "custom-platform" (some "150mb") none,
                       PlatformConfig.Simple "aarch64-darwin"] }

/-- String `sub` occurs as a substring of `s`. -/
def containsSubstring (s sub : String) : Prop :=
  ∃ a b, s = a ++ sub ++ b

/-- The property proved about the cloud-config parser: the concrete scenario
parses to exactly the claimed VM list; a successful parse yields one VM per
entry in listed order; every detailed entry inherits the cloud memory and
cpus unless overridden; an absent platform list behaves exactly like the two
known platforms; an unknown platform name is a hard error whose message
contains the substring `Platform '`; and memory strings are parsed
case-insensitively with `1 GB = 1024 MB`. -/
def CloudSpec : Prop :=
  (finalCloudNew exampleCloud =
    Except.ok [⟨2, 150, Platform.X86_64Linux⟩, ⟨2, 200, Platform.AArch64Darwin⟩]) ∧
  (∀ cm cc entries vms, collectE (resolveEntry cm cc) entries = Except.ok vms →
    vms.length = entries.length ∧
    List.Forall₂ (fun e vm => resolveEntry cm cc e = Except.ok vm) entries vms) ∧
  (∀ cm cc name memory cpus vm,
    resolveEntry cm cc (PlatformConfig.Detailed name memory cpus) = Except.ok vm →
    vm.cpu_count = cpus.getD cc ∧
    (memory = none → vm.memory_size_mb = cm) ∧
    (∀ s, memory = some s → parse_memory s = Except.ok vm.memory_size_mb)) ∧
  (∀ cm cc name,
    resolveEntry cm cc (PlatformConfig.Simple name) =
      resolveEntry cm cc (PlatformConfig.Detailed name none none)) ∧
  (∀ m c, finalCloudNew { memory := m, cpus := c, platforms := none } =
    finalCloudNew
      { memory := m, cpus := c,
        platforms := some [PlatformConfig.Simple "x86_64-linux",
                           PlatformConfig.Simple "aarch64-darwin"] }) ∧
  (∀ cm cc name memory cpus,
    name ≠ "x86_64-linux" → name ≠ "aarch64-darwin" →
    resolveEntry cm cc (PlatformConfig.Detailed name memory cpus) =
      Except.error (platformError name)) ∧
  (∀ name, containsSubstring (platformError name) "Platform \x27") ∧
  (finalCloudNew badCloud = Except.error (platformError "custom-platform")) ∧
  (parse_memory "150mb" = Except.ok 150 ∧ parse_memory "150MB" = Except.ok 150 ∧
    parse_memory "200mb" = Except.ok 200 ∧ parse_memory "1gb" = Except.ok 1024 ∧
    parse_memory "1GB" = Except.ok 1024 ∧ parse_memory "4Gb" = Except.ok 4096)

/-- C7: parsing a cloud-config document gives one VM per platform entry in
listed order, inheriting the cloud-level memory and cpus unless overridden;
memory suffixes mb/gb are case-insensitive with 1 GB = 1024 MB; an unknown
platform name is a hard parse error containing the substring `Platform '`;
an absent platforms list defaults to both known platforms; and the concrete
document of the claim parses to
`[{x86_64-linux, 2 cpus, 150 MB}, {aarch64-darwin, 2 cpus, 200 MB}]`. -/
theorem C7_cloudconfig : CloudSpec := by
  refine ⟨by rfl, ?_, ?_, ?_, ?_, ?_, ?_, by rfl, ?_⟩
  · intro cm cc entries vms h
    have hf := collectE_ok_forall (resolveEntry cm cc) entries vms h
    exact ⟨hf.length_eq.symm, hf⟩
  · intro cm cc name memory cpus vm h
    rw [resolveEntry_detailed] at h
    by_cases h1 : name = "x86_64-linux"
    · rw [if_pos h1] at h
      exact resolveEntry_tail_inv cm cc cpus vm Platform.X86_64Linux memory h
    · rw [if_neg h1] at h
      by_cases h2 : name = "aarch64-darwin"
      · rw [if_pos h2] at h
        exact resolveEntry_tail_inv cm cc cpus vm Platform.AArch64Darwin memory h
      · rw [if_neg h2] at h
        exact absurd h (by simp)
  · intro cm cc name
    rfl
  · intro m c
    rfl
  · intro cm cc name memory cpus h1 h2
    rw [resolveEntry_detailed, if_neg h1, if_neg h2]
  · intro name
    exact ⟨"",
      name ++ "\x27 is not supported. Only \x27x86_64-linux\x27 and \x27aarch64-darwin\x27 are allowed",
      rfl⟩
  · exact ⟨by rfl, by rfl, by rfl, by rfl, by rfl, by rfl⟩

/-- C7 witness: the specification applied at the concrete documents; the
universally quantified parts instantiated at the scenario's entries. -/
theorem C7_cloudconfig_witness :
    CloudSpec ∧
    resolveEntry 200 2 (PlatformConfig.Detailed "x86_64-linux" (some "150mb") none) =
      Except.ok ⟨2, 150, Platform.X86_64Linux⟩ ∧
    resolveEntry 200 2 (PlatformConfig.Simple "aarch64-darwin") =
      Except.ok ⟨2, 200, Platform.AArch64Darwin⟩ ∧
    resolveEntry 200 2 (PlatformConfig.Detailed "custom-platform" (some "150mb") none) =
      Except.error (platformError "custom-platform") :=
  ⟨C7_cloudconfig, by rfl, by rfl, by rfl⟩


/-! ## C9 — unrecognized X-Runner-Platform header -/

/-- C9: a websocket connection whose `X-Runner-Platform` header carries an
unrecognized platform string is not rejected — the handler parses it with
`unwrap_or(Platform::X86_64Linux)` and registers the runner with platform
`x86_64-linux`, exactly as when the header is absent. -/
theorem C9_unknown_platform_header (s : String)
    (h1 : s ≠ "x86_64-linux") (h2 : s ≠ "aarch64-darwin") :
    headerPlatform (some s) = Platform.X86_64Linux ∧
    headerPlatform (some s) = headerPlatform none := by
  constructor
  · unfold headerPlatform platformFromStr
    simp [h1, h2, Except.toOption]
  · unfold headerPlatform platformFromStr
    simp [h1, h2, Except.toOption]

/-- C9 witness: the header value "riscv64-linux" is not a recognized
platform, and the handler registers it as `x86_64-linux`. -/
theorem C9_unknown_platform_header_witness :
    ("riscv64-linux" ≠ "x86_64-linux") ∧ ("riscv64-linux" ≠ "aarch64-darwin") ∧
    (headerPlatform (some "riscv64-linux") = Platform.X86_64Linux ∧
      headerPlatform (some "riscv64-linux") = headerPlatform none) :=
  ⟨by decide, by decide,
   C9_unknown_platform_header "riscv64-linux" (by decide) (by decide)⟩

end DevenvCloud
